import Mathlib

/-!
# Verification of the `multiprocesser` job-dispatch engine

A shallow embedding of `multiprocesser/multiprocesser.py`: the chunker used by
`MultiProcesser.process_function` / `apply`, the job normalization loop, the
submission/collection loop of `multi_processer` and `MultiProcesser.run_jobs`
(with the pool-lifecycle side effects made explicit as an action trace), and
the `_loop_func` per-chunk helper.  Worker execution is abstracted by an
`Outcome` per submitted task (the value returned by `item.get`, a timeout, or
another worker-raised error); everything else is translated directly from the
source.
-/

/-- The universe of Python values the dispatcher manipulates: `None`, booleans,
integers, strings, lists (also standing in for tuples, which the source treats
interchangeably here), dicts, and opaque callables identified by an id. -/
inductive PyObj where
  | none
  | bool (b : Bool)
  | int (n : Int)
  | str (s : String)
  | list (xs : List PyObj)
  | dict (entries : List (PyObj × PyObj))
  | pyfunc (id : Nat)

/-- Python `callable(x)`: only `pyfunc` values are callable in the model.  The
source never tests callability, but claim C4 speaks about it. -/
def isCallable : PyObj → Bool
  | .pyfunc _ => true
  | _ => false

/-- Python `len(x)`: defined for strings, lists and dicts, `TypeError`
(modelled as `Option.none`) otherwise — matching the `try: len(data)` probe in
`_loop_func`. -/
def pyLen : PyObj → Option Nat
  | .str s => some s.length
  | .list xs => some xs.length
  | .dict es => some es.length
  | _ => Option.none

/-- Python iteration / star-unpacking `f(*data)`: a string yields its
one-character strings, a list its elements, a dict its keys.  Only ever used
on values whose `pyLen` is defined (matching `_loop_func`); the default branch
is unreachable there. -/
def starArgs : PyObj → List PyObj
  | .str s => s.toList.map (fun c => PyObj.str (String.mk [c]))
  | .list xs => xs
  | .dict es => es.map Prod.fst
  | d => [d]

/-! ## The chunker

`MultiProcesser.process_function` (lines 122-132) and `apply` (lines 399-409)
both run the loop

    start = 0
    for i in range(cpus):
        tot_size = len(data_list)
        if i < tot_size % cpus:
            size = tot_size // cpus + 1
        else:
            size = tot_size // cpus
        data_chunks_list.append(data_list[start:start + size])
        start += size
-/

/-- The `size` computed in iteration `i` of the chunking loop. -/
def chunkSize (totSize cpus i : Nat) : Nat :=
  if i < totSize % cpus then totSize / cpus + 1 else totSize / cpus

/-- The chunk sizes for the remaining `fuel` iterations of the loop, starting
at loop index `i`. -/
def sizesAux (totSize cpus : Nat) : Nat → Nat → List Nat
  | 0, _ => []
  | fuel + 1, i => chunkSize totSize cpus i :: sizesAux totSize cpus fuel (i + 1)

/-- All `cpus` chunk sizes, in loop order. -/
def chunkSizes (totSize cpus : Nat) : List Nat := sizesAux totSize cpus cpus 0

/-- The chunking loop itself: `fuel` iterations remain, the loop index is `i`
and the running slice offset is `start`; each iteration appends
`data_list[start:start + size]`. -/
def chunkAux (l : List α) (cpus : Nat) : Nat → Nat → Nat → List (List α)
  | 0, _, _ => []
  | fuel + 1, i, start =>
    let size := chunkSize l.length cpus i
    ((l.drop start).take size) :: chunkAux l cpus fuel (i + 1) (start + size)

/-- `data_chunks_list` as built by the source loop. -/
def pyChunks (l : List α) (cpus : Nat) : List (List α) := chunkAux l cpus cpus 0 0

/-- Cutting a list into consecutive pieces of prescribed sizes; the loop above
is proved equal to this (the absolute slice `l[start:start+size]` is the
relative take/drop on the not-yet-consumed suffix). -/
def chunksFrom (l : List α) : List Nat → List (List α)
  | [] => []
  | s :: rest => l.take s :: chunksFrom (l.drop s) rest

theorem chunkAux_eq_chunksFrom (l : List α) (cpus : Nat) :
    ∀ fuel i start,
      chunkAux l cpus fuel i start =
        chunksFrom (l.drop start) (sizesAux l.length cpus fuel i) := by
  intro fuel
  induction fuel with
  | zero => intro i start; simp [chunkAux, sizesAux, chunksFrom]
  | succ fuel ih =>
    intro i start
    simp only [chunkAux, sizesAux, chunksFrom]
    rw [ih (i + 1) (start + chunkSize l.length cpus i), List.drop_drop]

theorem sizesAux_eq_map_range' (totSize cpus : Nat) :
    ∀ fuel i, sizesAux totSize cpus fuel i =
      (List.range' i fuel).map (chunkSize totSize cpus) := by
  intro fuel
  induction fuel with
  | zero => intro i; simp [sizesAux]
  | succ fuel ih => intro i; simp [sizesAux, List.range', ih]

theorem sum_range_chunkSize (totSize cpus : Nat) :
    ∀ m, m ≤ cpus →
      ((List.range m).map (chunkSize totSize cpus)).sum =
        m * (totSize / cpus) + min m (totSize % cpus) := by
  intro m
  induction m with
  | zero => intro _; simp
  | succ m ih =>
    intro hm
    rw [List.range_succ, List.map_append, List.sum_append]
    rw [ih (by omega)]
    simp only [List.map_cons, List.map_nil, List.sum_cons, List.sum_nil]
    unfold chunkSize
    by_cases h : m < totSize % cpus
    · simp only [h, if_pos]
      have : min (m + 1) (totSize % cpus) = min m (totSize % cpus) + 1 := by
        omega
      rw [this]
      ring
    · simp only [h, if_neg, not_false_iff]
      have : min (m + 1) (totSize % cpus) = min m (totSize % cpus) := by omega
      rw [this]
      ring

/-- The chunk sizes sum to the total size (for at least one worker). -/
theorem chunkSizes_sum (totSize cpus : Nat) (h : 1 ≤ cpus) :
    (chunkSizes totSize cpus).sum = totSize := by
  unfold chunkSizes
  rw [sizesAux_eq_map_range', ← List.range_eq_range',
    sum_range_chunkSize totSize cpus cpus (le_refl cpus)]
  have hmod : totSize % cpus < cpus := Nat.mod_lt _ (by omega)
  have : min cpus (totSize % cpus) = totSize % cpus := by omega
  rw [this]
  have := Nat.div_add_mod totSize cpus
  omega

theorem chunksFrom_length (l : List α) (ss : List Nat) :
    (chunksFrom l ss).length = ss.length := by
  induction ss generalizing l with
  | nil => simp [chunksFrom]
  | cons s rest ih => simp [chunksFrom, ih]

theorem chunksFrom_flatten (l : List α) (ss : List Nat)
    (h : l.length ≤ ss.sum) : (chunksFrom l ss).flatten = l := by
  induction ss generalizing l with
  | nil =>
    simp only [List.sum_nil, Nat.le_zero] at h
    simp [chunksFrom, List.length_eq_zero.mp h]
  | cons s rest ih =>
    simp only [List.sum_cons] at h
    simp only [chunksFrom, List.flatten_cons]
    rw [ih (l.drop s) (by simp only [List.length_drop]; omega)]
    exact List.take_append_drop s l

theorem chunksFrom_map_length (l : List α) (ss : List Nat)
    (h : ss.sum ≤ l.length) : (chunksFrom l ss).map List.length = ss := by
  induction ss generalizing l with
  | nil => simp [chunksFrom]
  | cons s rest ih =>
    simp only [List.sum_cons] at h
    simp only [chunksFrom, List.map_cons]
    have h1 : (List.take s l).length = s := by rw [List.length_take]; omega
    rw [h1, ih (l.drop s) (by simp only [List.length_drop]; omega)]

theorem pyChunks_eq_chunksFrom (l : List α) (cpus : Nat) :
    pyChunks l cpus = chunksFrom l (chunkSizes l.length cpus) := by
  unfold pyChunks chunkSizes
  rw [chunkAux_eq_chunksFrom]
  simp

theorem sizesAux_length (totSize cpus : Nat) :
    ∀ fuel i, (sizesAux totSize cpus fuel i).length = fuel := by
  intro fuel
  induction fuel with
  | zero => intro i; simp [sizesAux]
  | succ fuel ih => intro i; simp [sizesAux, ih]

/-- The chunker always produces exactly `cpus` chunks. -/
theorem pyChunks_length (l : List α) (cpus : Nat) :
    (pyChunks l cpus).length = cpus := by
  rw [pyChunks_eq_chunksFrom, chunksFrom_length]
  unfold chunkSizes
  exact sizesAux_length _ _ _ _

example : pyChunks [1, 2, 3, 4, 5] 2 = [[1, 2, 3], [4, 5]] := by decide

example : pyChunks [1, 2] 4 = [[1], [2], [], []] := by decide

/-- C1: for every dataset `l` and worker count `cpus ≥ 1`, the chunking loop
in `MultiProcesser.process_function` and `apply` yields exactly `cpus`
contiguous chunks in original order: the first `len l % cpus` chunks have size
`len l / cpus + 1`, the rest size `len l / cpus`; the sizes sum to `len l` and
concatenating the chunks in order reproduces `l` exactly (when `cpus > len l`
the trailing chunks are empty, of size `len l / cpus = 0`). -/
theorem pyChunks_partition {α : Type} (l : List α) (cpus : Nat) (h : 1 ≤ cpus) :
    (pyChunks l cpus).length = cpus ∧
    (pyChunks l cpus).map List.length =
      (List.range cpus).map (fun i =>
        if i < l.length % cpus then l.length / cpus + 1 else l.length / cpus) ∧
    ((pyChunks l cpus).map List.length).sum = l.length ∧
    (pyChunks l cpus).flatten = l := by
  have hsum : (chunkSizes l.length cpus).sum = l.length := chunkSizes_sum _ _ h
  have hmap : (pyChunks l cpus).map List.length = chunkSizes l.length cpus := by
    rw [pyChunks_eq_chunksFrom]
    exact chunksFrom_map_length _ _ (le_of_eq hsum)
  refine ⟨pyChunks_length l cpus, ?_, ?_, ?_⟩
  · rw [hmap]
    unfold chunkSizes
    rw [sizesAux_eq_map_range', ← List.range_eq_range']
    rfl
  · rw [hmap, hsum]
  · rw [pyChunks_eq_chunksFrom]
    exact chunksFrom_flatten _ _ (le_of_eq hsum.symm)

/-- Witness for C1, at a five-element dataset split for two workers. -/
theorem pyChunks_partition_witness :
    (pyChunks [10, 20, 30, 40, 50] 2).length = 2 ∧
    (pyChunks [10, 20, 30, 40, 50] 2).map List.length =
      (List.range 2).map (fun i =>
        if i < [10, 20, 30, 40, 50].length % 2 then
          [10, 20, 30, 40, 50].length / 2 + 1
        else [10, 20, 30, 40, 50].length / 2) ∧
    ((pyChunks [10, 20, 30, 40, 50] 2).map List.length).sum =
      [10, 20, 30, 40, 50].length ∧
    (pyChunks [10, 20, 30, 40, 50] 2).flatten = [10, 20, 30, 40, 50] :=
  pyChunks_partition [10, 20, 30, 40, 50] 2 (by decide)

/-! ## Errors, task outcomes, and the failure sentinel -/

/-- The Python exceptions that flow through the dispatcher. -/
inductive PyErr where
  | indexError
  | typeError
  | attributeError
  | timeoutError
  | userError (info : String)
  deriving DecidableEq

/-- What `item.get(timeout=timeout)` does for one submitted task: return the
task's value, raise `multiprocessing.TimeoutError`, or raise some other
worker error.  Worker execution itself is outside the model, so a dispatch run
is parametrised by one `Outcome` per task, in submission order. -/
inductive Outcome where
  | ok (v : PyObj)
  | timeout
  | err (e : PyErr)

/-- The sentinel the collection loop puts into a failed task's result slot:
the source does `results.append(False)`. -/
def failedMarker : PyObj := PyObj.bool false

/-- The value a slot receives under `stop_on_error=False`: the task's value on
success, else the marker. -/
def slotValue : Outcome → PyObj
  | .ok v => v
  | .timeout => failedMarker
  | .err _ => failedMarker

/-- The exception that a failed `item.get` raises (and that a bare `raise`
re-raises unchanged). -/
def failErr : Outcome → Option PyErr
  | .ok _ => Option.none
  | .timeout => some PyErr.timeoutError
  | .err e => some e

/-! ## Job normalization

`multi_processer` lines 231-253 and `MultiProcesser.run_jobs` lines 32-54 run
the identical loop: for each raw job, read `job[0]`, `job[1]`, `job[2]` and
replace a `None` args/kwargs with `[]`/`{}`.  Any exception (for a too-short
job, an `IndexError`) is printed and re-raised as-is. -/

/-- A normalized job `[function, arguments, kwarguments]`.  The source never
checks that `function` is callable. -/
structure NormJob where
  func : PyObj
  args : PyObj
  kwargs : PyObj

/-- Python `job[i]` on a tuple/list: `IndexError` out of range. -/
def pyGetItem (xs : List PyObj) (i : Nat) : Except PyErr PyObj :=
  match xs.get? i with
  | some v => Except.ok v
  | Option.none => Except.error PyErr.indexError

/-- One iteration of the assembly loop: the four-way `is None` dispatch of the
source. -/
def assembleJob (job : List PyObj) : Except PyErr NormJob := do
  let function ← pyGetItem job 0
  let arguments ← pyGetItem job 1
  let kwarguments ← pyGetItem job 2
  match arguments, kwarguments with
  | PyObj.none, PyObj.none => pure ⟨function, PyObj.list [], PyObj.dict []⟩
  | PyObj.none, kw => pure ⟨function, PyObj.list [], kw⟩
  | args, PyObj.none => pure ⟨function, args, PyObj.dict []⟩
  | args, kw => pure ⟨function, args, kw⟩

/-- The whole assembly loop: stops at (re-raises) the first failure. -/
def assembleJobs : List (List PyObj) → Except PyErr (List NormJob)
  | [] => Except.ok []
  | job :: rest => do
    let j ← assembleJob job
    let js ← assembleJobs rest
    pure (j :: js)

/-! ## The collection loop

Lines 274-316 of `multi_processer` (and the identical loop in
`MultiProcesser.run_jobs`, lines 67-105, which never joins the pool): wait on
each queued task in submission order; on success append the value; on
timeout/error either terminate (and, in `multi_processer`, join a self-created
pool) and re-raise, or append `False` and continue. -/

/-- Observable pool-lifecycle operations. -/
inductive PoolAction where
  | createPool (workers : Nat)
  | terminate
  | join
  | close
  deriving DecidableEq

/-- Result of the collection loop: the returned list (or the re-raised
exception), the pool actions it performed, and how many tasks it waited on. -/
structure CollectOut where
  results : Except PyErr (List PyObj)
  actions : List PoolAction
  waited : Nat

/-- The collection loop.  `poolCreated` tells whether the enclosing call
created the pool itself (`multi_processer` joins after terminating only in
that case; `MultiProcesser.run_jobs` never joins, which this models with
`poolCreated = false`). -/
def collectLoop (stopOnError poolCreated : Bool) : List Outcome → CollectOut
  | [] => ⟨Except.ok [], [], 0⟩
  | Outcome.ok v :: rest =>
    let r := collectLoop stopOnError poolCreated rest
    ⟨r.results.map (fun rs => v :: rs), r.actions, r.waited + 1⟩
  | Outcome.timeout :: rest =>
    if stopOnError then
      ⟨Except.error PyErr.timeoutError,
        PoolAction.terminate :: (if poolCreated then [PoolAction.join] else []), 1⟩
    else
      let r := collectLoop stopOnError poolCreated rest
      ⟨r.results.map (fun rs => failedMarker :: rs), r.actions, r.waited + 1⟩
  | Outcome.err e :: rest =>
    if stopOnError then
      ⟨Except.error e,
        PoolAction.terminate :: (if poolCreated then [PoolAction.join] else []), 1⟩
    else
      let r := collectLoop stopOnError poolCreated rest
      ⟨r.results.map (fun rs => failedMarker :: rs), r.actions, r.waited + 1⟩

/-! ## The dispatchers -/

/-- Everything observable about one dispatch call: the normalized jobs that
were submitted to the pool (all submission happens before collection starts),
the pool-lifecycle actions, how many tasks were waited on, the worker count a
self-created pool was created with, and the returned value or re-raised
exception. -/
structure DispatchRun where
  submitted : List NormJob
  actions : List PoolAction
  waited : Nat
  poolCreatedWith : Option Nat
  result : Except PyErr (List PyObj)

/-- The free function `multi_processer` (lines 200-332).  In order: clamp
`cpus` to the hardware count, then to the job count; assemble the jobs
(re-raising on failure, before any pool exists or anything is submitted);
create a pool of `cpus` workers unless the caller supplied one; submit every
job; collect; after a fully successful collection, close and join a
self-created pool. -/
def multiProcesser (hwCpuCount : Nat) (jobs : List (List PyObj))
    (outcomes : List Outcome) (cpus : Nat) (stopOnError : Bool)
    (poolProvided : Bool) : DispatchRun :=
  let cpus1 := if cpus > hwCpuCount then hwCpuCount else cpus
  let cpus2 := if jobs.length < cpus1 then jobs.length else cpus1
  match assembleJobs jobs with
  | Except.error e => ⟨[], [], 0, Option.none, Except.error e⟩
  | Except.ok jobArgs =>
    let poolCreated := !poolProvided
    let createActs :=
      if poolCreated then [PoolAction.createPool cpus2] else []
    let c := collectLoop stopOnError poolCreated outcomes
    let finishActs :=
      match c.results with
      | Except.ok _ =>
        if poolCreated then [PoolAction.close, PoolAction.join] else []
      | Except.error _ => []
    ⟨jobArgs, createActs ++ c.actions ++ finishActs, c.waited,
      if poolCreated then some cpus2 else Option.none, c.results⟩

/-- The mutable state of a `MultiProcesser` instance: the (hardware-clamped)
`cpus`, the pool (`None` until `start()` is called, then its worker count),
and the error policy. -/
structure MP where
  cpus : Nat
  workerPool : Option Nat
  stopOnError : Bool

/-- `MultiProcesser.__init__` (lines 12-20): clamp `cpus` to the hardware
count; `self.worker_pool = None`. -/
def MP.init (hwCpuCount cpus : Nat) (stopOnError : Bool) : MP :=
  ⟨if cpus > hwCpuCount then hwCpuCount else cpus, Option.none, stopOnError⟩

/-- `MultiProcesser.start` (lines 22-25): create a pool of `self.cpus`
workers (regardless of any job count). -/
def MP.start (m : MP) : MP := { m with workerPool := some m.cpus }

/-- `MultiProcesser.run_jobs` (lines 27-116).  Assembly as in
`multi_processer`; then each job is submitted via
`self.worker_pool.apply_async(...)` — when `self.worker_pool` is `None` the
first submission raises `AttributeError`, which the outer bare `except`
re-raises (with nothing submitted).  The collection loop is the one of
`multi_processer` except that on a fatal error the pool is only terminated,
never joined, and a successful run never closes or joins the pool. -/
def runJobs (m : MP) (jobs : List (List PyObj)) (outcomes : List Outcome) :
    DispatchRun :=
  match assembleJobs jobs with
  | Except.error e => ⟨[], [], 0, Option.none, Except.error e⟩
  | Except.ok jobArgs =>
    match m.workerPool, jobArgs with
    | Option.none, [] => ⟨[], [], 0, Option.none, Except.ok []⟩
    | Option.none, _ :: _ =>
      ⟨[], [], 0, Option.none, Except.error PyErr.attributeError⟩
    | some _, _ =>
      let c := collectLoop m.stopOnError false outcomes
      ⟨jobArgs, c.actions, c.waited, Option.none, c.results⟩

/-! ## `_loop_func` and the `process_function` facade -/

/-- `_loop_func` (lines 335-343): probe `len(data)`; on `TypeError` wrap the
element into a 1-tuple; then call `function(*data, **keyword_data)`.  The user
function is modelled as a Lean function from the positional-argument list and
the keyword arguments to a value. -/
def loopFunc (function : List PyObj → List (String × PyObj) → PyObj)
    (dataList : List PyObj) (keywordData : List (String × PyObj)) :
    List PyObj :=
  dataList.map (fun data =>
    match pyLen data with
    | some _ => function (starArgs data) keywordData
    | Option.none => function [data] keywordData)

/-- The sequential branch of `process_function` (line 138):
`[function(data, **keyword_data) for data in data_list]`. -/
def processFunctionSeq (function : List PyObj → List (String × PyObj) → PyObj)
    (dataList : List PyObj) (keywordData : List (String × PyObj)) :
    List PyObj :=
  dataList.map (fun data => function [data] keywordData)

/-- The raw job tuple `( _loop_func, (function, data_chunk),
{"keyword_data": keyword_data} )` built for one chunk (line 133); `pyfunc 0`
stands for `_loop_func` and `pyfunc 1` for `function`. -/
def chunkJob (chunk : List PyObj) (keywordData : List (String × PyObj)) :
    List PyObj :=
  [PyObj.pyfunc 0, PyObj.list [PyObj.pyfunc 1, PyObj.list chunk],
    PyObj.dict [(PyObj.str "keyword_data",
      PyObj.dict (keywordData.map (fun p => (PyObj.str p.1, p.2))))]]

/-- Python `[item for sublist in results for item in sublist]` (line 136). -/
def pyFlatten (results : List PyObj) : List PyObj :=
  (results.map starArgs).flatten

/-- The parallel branch of `MultiProcesser.process_function` (lines 122-136)
under the zero-worker-failure assumption: each submitted job's task yields
exactly the value `_loop_func` computes for its chunk, and the chunk results
are flattened.  Any exception out of `run_jobs` propagates. -/
def processFunctionParallelRun (m : MP)
    (function : List PyObj → List (String × PyObj) → PyObj)
    (dataList : List PyObj) (keywordData : List (String × PyObj)) :
    Except PyErr (List PyObj) :=
  let chunks := pyChunks dataList m.cpus
  let jobList := chunks.map (fun chunk => chunkJob chunk keywordData)
  let outcomes :=
    chunks.map (fun chunk =>
      Outcome.ok (PyObj.list (loopFunc function chunk keywordData)))
  match (runJobs m jobList outcomes).result with
  | Except.error e => Except.error e
  | Except.ok results => Except.ok (pyFlatten results)

/-- The module-level facade `process_function` (lines 346-351): build a fresh
`MultiProcesser` (whose `worker_pool` is `None`; nothing ever calls
`start()`), then run the parallel branch when `cpus > 1 or
force_multiprocessing`, the sequential branch otherwise. -/
def processFunctionFacade (hwCpuCount : Nat)
    (function : List PyObj → List (String × PyObj) → PyObj)
    (dataList : List PyObj) (cpus : Nat) (keywordData : List (String × PyObj))
    (forceMultiprocessing : Bool) : Except PyErr (List PyObj) :=
  let m := MP.init hwCpuCount cpus true
  if m.cpus > 1 ∨ forceMultiprocessing then
    processFunctionParallelRun m function dataList keywordData
  else
    Except.ok (processFunctionSeq function dataList keywordData)

/-! ## Collection-loop lemmas -/

/-- With `stop_on_error=False` the loop waits on every task, performs no pool
action, and returns one slot per task: the value on success, the `False`
sentinel otherwise. -/
theorem collectLoop_no_stop (poolCreated : Bool) (outs : List Outcome) :
    collectLoop false poolCreated outs =
      ⟨Except.ok (outs.map slotValue), [], outs.length⟩ := by
  induction outs with
  | nil => rfl
  | cons o rest ih =>
    cases o with
    | ok v => simp [collectLoop, ih, Except.map, slotValue]
    | timeout => simp [collectLoop, ih, Except.map, slotValue]
    | err e => simp [collectLoop, ih, Except.map, slotValue]

/-- A prefix of successful tasks is consumed transparently (results). -/
theorem collectLoop_ok_prefix_results (stopOnError poolCreated : Bool)
    (vs : List PyObj) (rest : List Outcome) :
    (collectLoop stopOnError poolCreated (vs.map Outcome.ok ++ rest)).results =
      (collectLoop stopOnError poolCreated rest).results.map
        (fun rs => vs ++ rs) := by
  induction vs with
  | nil =>
    simp only [List.map_nil, List.nil_append]
    cases h : (collectLoop stopOnError poolCreated rest).results <;> rfl
  | cons v vs ih =>
    simp only [List.map_cons, List.cons_append, collectLoop, List.append_eq,
      ih]
    cases h : (collectLoop stopOnError poolCreated rest).results <;> rfl

/-- A prefix of successful tasks is consumed transparently (pool actions). -/
theorem collectLoop_ok_prefix_actions (stopOnError poolCreated : Bool)
    (vs : List PyObj) (rest : List Outcome) :
    (collectLoop stopOnError poolCreated (vs.map Outcome.ok ++ rest)).actions =
      (collectLoop stopOnError poolCreated rest).actions := by
  induction vs with
  | nil => rfl
  | cons v vs ih =>
    simp only [List.map_cons, List.cons_append, collectLoop, List.append_eq,
      ih]

/-- A prefix of successful tasks is consumed transparently (wait count). -/
theorem collectLoop_ok_prefix_waited (stopOnError poolCreated : Bool)
    (vs : List PyObj) (rest : List Outcome) :
    (collectLoop stopOnError poolCreated (vs.map Outcome.ok ++ rest)).waited =
      (collectLoop stopOnError poolCreated rest).waited + vs.length := by
  induction vs with
  | nil => rfl
  | cons v vs ih =>
    simp only [List.map_cons, List.cons_append, collectLoop, List.append_eq,
      ih, List.length_cons]
    omega

/-- With `stop_on_error=True`, the first failing task makes the loop terminate
the pool (joining it only when the caller created it), wait on nothing
further, and re-raise the original exception. -/
theorem collectLoop_stop_fail (poolCreated : Bool) (o : Outcome)
    (e : PyErr) (he : failErr o = some e) (rest : List Outcome) :
    collectLoop true poolCreated (o :: rest) =
      ⟨Except.error e,
        PoolAction.terminate :: (if poolCreated then [PoolAction.join] else []),
        1⟩ := by
  cases o with
  | ok v => simp [failErr] at he
  | timeout =>
    simp only [failErr, Option.some.injEq] at he
    subst he
    rfl
  | err e2 =>
    simp only [failErr, Option.some.injEq] at he
    subst he
    rfl

/-! ## Assembly-loop lemmas -/

theorem assembleJobs_cons_ok (job : List PyObj) (rest : List (List PyObj))
    (j : NormJob) (h : assembleJob job = Except.ok j) :
    assembleJobs (job :: rest) =
      (assembleJobs rest).map (fun js => j :: js) := by
  cases h2 : assembleJobs rest <;>
    simp [assembleJobs, h, h2, Bind.bind, Except.bind, Except.map,
      Pure.pure, Except.pure]

theorem assembleJobs_cons_err (job : List PyObj) (rest : List (List PyObj))
    (e : PyErr) (h : assembleJob job = Except.error e) :
    assembleJobs (job :: rest) = Except.error e := by
  simp [assembleJobs, h, Bind.bind, Except.bind]

/-- A raw job with at least three elements always normalizes: `job[0]`,
`job[1]`, `job[2]` all succeed, and every branch of the `None` dispatch
returns. In particular nothing about the first element being callable is
checked, and elements beyond the third are ignored. -/
theorem assembleJob_ok_of_three_le (job : List PyObj) (h : 3 ≤ job.length) :
    ∃ nj : NormJob, assembleJob job = Except.ok nj := by
  match job, h with
  | a :: b :: c :: rest, _ => cases b <;> cases c <;> exact ⟨_, rfl⟩

/-- A raw job with fewer than three elements makes the assembly loop raise
`IndexError` (the bare `except` prints a message and re-raises it as-is). -/
theorem assembleJob_short (job : List PyObj) (h : job.length < 3) :
    assembleJob job = Except.error PyErr.indexError := by
  cases job with
  | nil => rfl
  | cons a t =>
    cases t with
    | nil => rfl
    | cons b t2 =>
      cases t2 with
      | nil => rfl
      | cons c t3 => simp only [List.length_cons] at h; omega

theorem assembleJobs_ok_of_shapes (jobs : List (List PyObj))
    (h : ∀ j ∈ jobs, 3 ≤ j.length) :
    ∃ ja : List NormJob,
      assembleJobs jobs = Except.ok ja ∧ ja.length = jobs.length := by
  induction jobs with
  | nil => exact ⟨[], rfl, rfl⟩
  | cons job rest ih =>
    obtain ⟨nj, hnj⟩ := assembleJob_ok_of_three_le job (h job (by simp))
    obtain ⟨ja, hja, hlen⟩ := ih (fun j hj => h j (by simp [hj]))
    exact ⟨nj :: ja,
      by simp [assembleJobs_cons_ok job rest nj hnj, hja, Except.map],
      by simp [hlen]⟩

theorem assembleJobs_append_err (pre : List (List PyObj)) (job : List PyObj)
    (post : List (List PyObj)) (hpre : ∀ j ∈ pre, 3 ≤ j.length)
    (hjob : job.length < 3) :
    assembleJobs (pre ++ job :: post) = Except.error PyErr.indexError := by
  induction pre with
  | nil =>
    rw [List.nil_append]
    exact assembleJobs_cons_err job post PyErr.indexError
      (assembleJob_short job hjob)
  | cons p ps ih =>
    obtain ⟨nj, hnj⟩ := assembleJob_ok_of_three_le p (hpre p (by simp))
    rw [List.cons_append, assembleJobs_cons_ok p _ nj hnj,
      ih (fun j hj => hpre j (by simp [hj]))]
    rfl

/-! ## Claim C2 -/

/-- C2: with `stop_on_error=False`, a dispatched batch yields exactly one
result slot per submitted task, in submission order; each slot is either the
task's value or the failure marker; with zero failures every slot is its
task's value; with exactly one timeout that slot is the marker and every
other slot is its task's value. -/
theorem multi_processer_no_stop_slots (hwCpuCount cpus : Nat)
    (poolProvided : Bool) (jobs : List (List PyObj)) (outs : List Outcome)
    (ja : List NormJob) (hja : assembleJobs jobs = Except.ok ja)
    (hlen : outs.length = jobs.length) :
    (multiProcesser hwCpuCount jobs outs cpus false poolProvided).result =
      Except.ok (outs.map slotValue) ∧
    (outs.map slotValue).length = jobs.length ∧
    (∀ i, i < outs.length →
      outs.get? i = ((outs.map slotValue).get? i).map Outcome.ok ∨
        (outs.map slotValue).get? i = some failedMarker) ∧
    (∀ vs ws : List PyObj,
      outs = vs.map Outcome.ok ++ Outcome.timeout :: ws.map Outcome.ok →
      (multiProcesser hwCpuCount jobs outs cpus false poolProvided).result =
        Except.ok (vs ++ failedMarker :: ws)) := by
  have hres :
      (multiProcesser hwCpuCount jobs outs cpus false poolProvided).result =
        Except.ok (outs.map slotValue) := by
    simp [multiProcesser, hja, collectLoop_no_stop]
  refine ⟨hres, by simp [hlen], ?_, ?_⟩
  · intro i hi
    rw [List.get?_map]
    cases h : outs.get? i with
    | none =>
      rw [List.get?_eq_none] at h
      omega
    | some o =>
      cases o with
      | ok v => left; rfl
      | timeout => right; rfl
      | err e => right; rfl
  · intro vs ws heq
    rw [hres, heq]
    have h1 : ∀ l : List PyObj, l.map (slotValue ∘ Outcome.ok) = l := by
      intro l
      induction l with
      | nil => rfl
      | cons a t iht => simp [slotValue, Function.comp, iht]
    simp only [List.map_append, List.map_cons, List.map_map, h1]
    rfl

/-- A concrete two-job batch used by witnesses. -/
def jobsTwo : List (List PyObj) :=
  [[PyObj.pyfunc 1, PyObj.list [PyObj.int 1], PyObj.none],
   [PyObj.pyfunc 1, PyObj.list [PyObj.int 2], PyObj.none]]

/-- The normalized form of `jobsTwo`. -/
def jaTwo : List NormJob :=
  [⟨PyObj.pyfunc 1, PyObj.list [PyObj.int 1], PyObj.dict []⟩,
   ⟨PyObj.pyfunc 1, PyObj.list [PyObj.int 2], PyObj.dict []⟩]

/-- Witness for C2: two jobs, the second one timing out. -/
theorem multi_processer_no_stop_slots_witness :
    (multiProcesser 4 jobsTwo [Outcome.ok (PyObj.int 1), Outcome.timeout]
        2 false false).result =
      Except.ok ([Outcome.ok (PyObj.int 1), Outcome.timeout].map slotValue) ∧
    ([Outcome.ok (PyObj.int 1), Outcome.timeout].map slotValue).length =
      jobsTwo.length ∧
    (∀ i, i < [Outcome.ok (PyObj.int 1), Outcome.timeout].length →
      [Outcome.ok (PyObj.int 1), Outcome.timeout].get? i =
        (([Outcome.ok (PyObj.int 1), Outcome.timeout].map slotValue).get? i).map
          Outcome.ok ∨
        ([Outcome.ok (PyObj.int 1), Outcome.timeout].map slotValue).get? i =
          some failedMarker) ∧
    (∀ vs ws : List PyObj,
      [Outcome.ok (PyObj.int 1), Outcome.timeout] =
        vs.map Outcome.ok ++ Outcome.timeout :: ws.map Outcome.ok →
      (multiProcesser 4 jobsTwo [Outcome.ok (PyObj.int 1), Outcome.timeout]
          2 false false).result =
        Except.ok (vs ++ failedMarker :: ws)) :=
  multi_processer_no_stop_slots 4 2 false jobsTwo
    [Outcome.ok (PyObj.int 1), Outcome.timeout] jaTwo rfl rfl

/-! ## Claim C3 -/

/-- Counterexample to C3 as stated: with `stop_on_error=False`, a task that
legitimately returns boolean `False` and a task that times out produce
identical slots — the failure marker placed by `results.append(False)` *is*
the boolean `False`, a value a user callable can return. -/
theorem failed_marker_ambiguous_cx :
    (collectLoop false false
        [Outcome.ok (PyObj.bool false), Outcome.timeout]).results =
      Except.ok [PyObj.bool false, PyObj.bool false] ∧
    slotValue (Outcome.ok (PyObj.bool false)) = failedMarker ∧
    failedMarker = PyObj.bool false :=
  ⟨rfl, rfl, rfl⟩

/-- C3 amended: the failure marker is the boolean `False` itself, so a caller
cannot distinguish a failed slot from a legitimately returned boolean
`False`; only values different from boolean `False` are distinguishable from
the marker, and a successful task's slot always holds exactly the task's
value. -/
theorem failed_marker_boolean (v : PyObj) (hv : v ≠ PyObj.bool false) :
    failedMarker = PyObj.bool false ∧ v ≠ failedMarker ∧
    (∀ (outs : List Outcome) (i : Nat) (w : PyObj),
      outs.get? i = some (Outcome.ok w) →
      ∃ rs, (collectLoop false false outs).results = Except.ok rs ∧
        rs.get? i = some w) := by
  refine ⟨rfl, hv, ?_⟩
  intro outs i w hw
  refine ⟨outs.map slotValue, by rw [collectLoop_no_stop], ?_⟩
  rw [List.get?_map, hw]
  rfl

/-- Witness for C3's amended theorem at `v = 3`. -/
theorem failed_marker_boolean_witness :
    failedMarker = PyObj.bool false ∧ PyObj.int 3 ≠ failedMarker ∧
    (∀ (outs : List Outcome) (i : Nat) (w : PyObj),
      outs.get? i = some (Outcome.ok w) →
      ∃ rs, (collectLoop false false outs).results = Except.ok rs ∧
        rs.get? i = some w) :=
  failed_marker_boolean (PyObj.int 3) (by simp)

/-! ## Claim C4 -/

/-- Counterexample to C4 as stated: a batch whose only job has a non-callable
first element raises nothing — the job is normalized and submitted to the
pool (it fails only later, inside the worker); no `MalformedJobError` type
exists in the source at all. -/
theorem malformed_job_submitted_cx :
    (multiProcesser 4 [[PyObj.int 42, PyObj.none, PyObj.none]]
        [Outcome.err (PyErr.userError "TypeError: not callable")]
        2 true false).submitted =
      [⟨PyObj.int 42, PyObj.list [], PyObj.dict []⟩] ∧
    isCallable (PyObj.int 42) = false :=
  ⟨rfl, rfl⟩

/-- C4 amended: a job entry with fewer than three elements makes the assembly
loop re-raise the underlying `IndexError` (untyped; an explanatory message is
printed but no `MalformedJobError` exists), and this happens before any pool
is created, any job is submitted, or any task is waited on; entries with
three or more elements always pass assembly — elements beyond the third are
ignored and a non-callable first element is not rejected. -/
theorem malformed_job_validation (hwCpuCount cpus : Nat)
    (stopOnError poolProvided : Bool) (outs : List Outcome)
    (pre post : List (List PyObj)) (job : List PyObj)
    (hpre : ∀ j ∈ pre, 3 ≤ j.length) (hjob : job.length < 3) :
    multiProcesser hwCpuCount (pre ++ job :: post) outs cpus stopOnError
        poolProvided =
      ⟨[], [], 0, Option.none, Except.error PyErr.indexError⟩ ∧
    (∀ jobs : List (List PyObj), (∀ j ∈ jobs, 3 ≤ j.length) →
      ∃ ja : List NormJob,
        assembleJobs jobs = Except.ok ja ∧ ja.length = jobs.length) := by
  constructor
  · have h := assembleJobs_append_err pre job post hpre hjob
    simp [multiProcesser, h]
  · exact assembleJobs_ok_of_shapes

/-- Witness for C4's amended theorem: the single-element job `(fn,)`. -/
theorem malformed_job_validation_witness :
    multiProcesser 4 ([] ++ [PyObj.pyfunc 0] :: []) [] 2 true false =
      ⟨[], [], 0, Option.none, Except.error PyErr.indexError⟩ ∧
    (∀ jobs : List (List PyObj), (∀ j ∈ jobs, 3 ≤ j.length) →
      ∃ ja : List NormJob,
        assembleJobs jobs = Except.ok ja ∧ ja.length = jobs.length) :=
  malformed_job_validation 4 2 true false [] [] [] [PyObj.pyfunc 0]
    (by simp) (by simp)

/-! ## Claim C5 -/

theorem collectLoop_stop_fail_prefix (pc : Bool) (vs : List PyObj)
    (o : Outcome) (e : PyErr) (he : failErr o = some e)
    (rest : List Outcome) :
    collectLoop true pc (vs.map Outcome.ok ++ o :: rest) =
      ⟨Except.error e,
        PoolAction.terminate :: (if pc then [PoolAction.join] else []),
        vs.length + 1⟩ := by
  have h1 := collectLoop_ok_prefix_results true pc vs (o :: rest)
  have h2 := collectLoop_ok_prefix_actions true pc vs (o :: rest)
  have h3 := collectLoop_ok_prefix_waited true pc vs (o :: rest)
  rw [collectLoop_stop_fail pc o e he rest] at h1 h2 h3
  simp only [Except.map] at h1 h2 h3
  have heta : collectLoop true pc (vs.map Outcome.ok ++ o :: rest) =
      ⟨(collectLoop true pc (vs.map Outcome.ok ++ o :: rest)).results,
        (collectLoop true pc (vs.map Outcome.ok ++ o :: rest)).actions,
        (collectLoop true pc (vs.map Outcome.ok ++ o :: rest)).waited⟩ := rfl
  rw [heta, h1, h2, h3, Nat.add_comm 1 vs.length]

/-- The two clamping `if`s of `multi_processer` compute
`min(min(cpus, hw), job_count)`. -/
theorem clamp_eq_min (cpus hw J : Nat) :
    (if J < (if cpus > hw then hw else cpus) then J
      else (if cpus > hw then hw else cpus)) = min (min cpus hw) J := by
  by_cases h1 : cpus > hw
  · rw [if_pos h1]
    split <;> omega
  · rw [if_neg h1]
    split <;> omega

/-- `multi_processer` under `stop_on_error=True` with a failing task after a
prefix of successes: full observable behaviour. -/
theorem multiProcesser_stop_fail (hwCpuCount cpus : Nat) (pp : Bool)
    (jobs : List (List PyObj)) (ja : List NormJob)
    (hja : assembleJobs jobs = Except.ok ja) (vs : List PyObj) (o : Outcome)
    (e : PyErr) (he : failErr o = some e) (rest : List Outcome) :
    multiProcesser hwCpuCount jobs (vs.map Outcome.ok ++ o :: rest) cpus true
        pp =
      ⟨ja,
        (if pp then [] else
          [PoolAction.createPool (min (min cpus hwCpuCount) jobs.length)]) ++
          PoolAction.terminate :: (if pp then [] else [PoolAction.join]),
        vs.length + 1,
        if pp then Option.none
          else some (min (min cpus hwCpuCount) jobs.length),
        Except.error e⟩ := by
  cases pp with
  | false =>
    simp only [multiProcesser, hja, Bool.not_false,
      collectLoop_stop_fail_prefix true vs o e he rest, clamp_eq_min]
    rfl
  | true =>
    simp only [multiProcesser, hja, Bool.not_true,
      collectLoop_stop_fail_prefix false vs o e he rest, clamp_eq_min]
    rfl

/-- Counterexample to C5 as stated: `MultiProcesser.run_jobs` with a running
pool and a timing-out task under `stop_on_error=True` terminates the pool and
re-raises, but never joins it (and `multi_processer` with a caller-supplied
pool behaves the same way). -/
theorem stop_on_error_join_cx :
    (runJobs ⟨4, some 4, true⟩ [[PyObj.pyfunc 0, PyObj.none, PyObj.none]]
        [Outcome.timeout]).result = Except.error PyErr.timeoutError ∧
    (runJobs ⟨4, some 4, true⟩ [[PyObj.pyfunc 0, PyObj.none, PyObj.none]]
        [Outcome.timeout]).actions = [PoolAction.terminate] ∧
    PoolAction.join ∉
      (runJobs ⟨4, some 4, true⟩ [[PyObj.pyfunc 0, PyObj.none, PyObj.none]]
          [Outcome.timeout]).actions :=
  ⟨rfl, rfl, by decide⟩

/-- C5 amended: with `stop_on_error=True`, the first failing task makes the
dispatcher terminate the pool and re-raise the original exception unchanged
(same type and payload), waiting on no further task; the pool is joined after
termination only when `multi_processer` created the pool in the same call —
with a caller-supplied pool, and in `MultiProcesser.run_jobs` always, the
pool is terminated but never joined. -/
theorem stop_on_error_termination (hwCpuCount cpus : Nat)
    (jobs : List (List PyObj)) (ja : List NormJob)
    (hja : assembleJobs jobs = Except.ok ja) (vs : List PyObj) (o : Outcome)
    (e : PyErr) (he : failErr o = some e) (rest : List Outcome) :
    multiProcesser hwCpuCount jobs (vs.map Outcome.ok ++ o :: rest) cpus true
        false =
      ⟨ja,
        [PoolAction.createPool (min (min cpus hwCpuCount) jobs.length),
          PoolAction.terminate, PoolAction.join],
        vs.length + 1, some (min (min cpus hwCpuCount) jobs.length),
        Except.error e⟩ ∧
    multiProcesser hwCpuCount jobs (vs.map Outcome.ok ++ o :: rest) cpus true
        true =
      ⟨ja, [PoolAction.terminate], vs.length + 1, Option.none,
        Except.error e⟩ ∧
    (∀ p : Nat, ja ≠ [] →
      runJobs ⟨cpus, some p, true⟩ jobs (vs.map Outcome.ok ++ o :: rest) =
        ⟨ja, [PoolAction.terminate], vs.length + 1, Option.none,
          Except.error e⟩) := by
  refine ⟨?_, ?_, ?_⟩
  · rw [multiProcesser_stop_fail hwCpuCount cpus false jobs ja hja vs o e he
      rest]
    rfl
  · rw [multiProcesser_stop_fail hwCpuCount cpus true jobs ja hja vs o e he
      rest]
    rfl
  · intro p _
    simp only [runJobs, hja, collectLoop_stop_fail_prefix false vs o e he
      rest]
    rfl

/-- Witness for C5's amended theorem: two jobs, the first succeeds, the
second times out. -/
theorem stop_on_error_termination_witness :
    multiProcesser 4 jobsTwo
        ([PyObj.int 1].map Outcome.ok ++ Outcome.timeout :: []) 2 true
        false =
      ⟨jaTwo,
        [PoolAction.createPool (min (min 2 4) jobsTwo.length),
          PoolAction.terminate, PoolAction.join],
        [PyObj.int 1].length + 1, some (min (min 2 4) jobsTwo.length),
        Except.error PyErr.timeoutError⟩ ∧
    multiProcesser 4 jobsTwo
        ([PyObj.int 1].map Outcome.ok ++ Outcome.timeout :: []) 2 true
        true =
      ⟨jaTwo, [PoolAction.terminate], [PyObj.int 1].length + 1, Option.none,
        Except.error PyErr.timeoutError⟩ ∧
    (∀ p : Nat, jaTwo ≠ [] →
      runJobs ⟨2, some p, true⟩ jobsTwo
          ([PyObj.int 1].map Outcome.ok ++ Outcome.timeout :: []) =
        ⟨jaTwo, [PoolAction.terminate], [PyObj.int 1].length + 1,
          Option.none, Except.error PyErr.timeoutError⟩) :=
  stop_on_error_termination 4 2 jobsTwo jaTwo rfl [PyObj.int 1]
    Outcome.timeout PyErr.timeoutError rfl []

/-! ## Claim C6 -/

/-- Counterexample to C6 as stated: a `MultiProcesser` built for 2 cpus (with
8 hardware cpus) and started owns a pool of 2 workers; a single-job batch
dispatched through `run_jobs` then executes on that 2-worker pool, not on a
pool of `min(2, 1) = 1` workers. -/
theorem pool_size_cx :
    ((MP.init 8 2 true).start).workerPool = some 2 ∧
    (runJobs ((MP.init 8 2 true).start)
        [[PyObj.pyfunc 0, PyObj.none, PyObj.none]]
        [Outcome.ok (PyObj.int 7)]).result = Except.ok [PyObj.int 7] ∧
    ((MP.init 8 2 true).start).workerPool ≠ some (min (min 2 8) 1) :=
  ⟨rfl, rfl, by decide⟩

/-- C6 amended: `multi_processer`, when it creates the pool itself, sizes it
to `min(min(requested, hardware), job_count)`; the `MultiProcesser` class
instead clamps only to the hardware count — `start()` creates a pool of
`min(requested, hardware)` workers regardless of any batch size, so a
`run_jobs` batch can execute on a pool with more workers than jobs. -/
theorem pool_size_clamped (hwCpuCount cpus : Nat) (stopOnError : Bool)
    (jobs : List (List PyObj)) (outs : List Outcome) (ja : List NormJob)
    (hja : assembleJobs jobs = Except.ok ja) :
    (multiProcesser hwCpuCount jobs outs cpus stopOnError
        false).poolCreatedWith =
      some (min (min cpus hwCpuCount) jobs.length) ∧
    (∀ hw2 c2 : Nat, ∀ s2 : Bool,
      ((MP.init hw2 c2 s2).start).workerPool = some (min c2 hw2)) := by
  constructor
  · simp only [multiProcesser, hja, clamp_eq_min, Bool.not_false]
    rfl
  · intro hw2 c2 s2
    simp only [MP.init, MP.start]
    have hmin : (if c2 > hw2 then hw2 else c2) = min c2 hw2 := by
      split <;> omega
    rw [hmin]

/-- Witness for C6's amended theorem: 8 cpus requested, 4 available, 2
jobs. -/
theorem pool_size_clamped_witness :
    (multiProcesser 4 jobsTwo [] 8 true false).poolCreatedWith =
      some (min (min 8 4) jobsTwo.length) ∧
    (∀ hw2 c2 : Nat, ∀ s2 : Bool,
      ((MP.init hw2 c2 s2).start).workerPool = some (min c2 hw2)) :=
  pool_size_clamped 4 8 true jobsTwo [] jaTwo rfl

/-! ## Claim C7 -/

/-- `run_jobs` with a nonempty normalized batch and no pool: the first
`self.worker_pool.apply_async(...)` raises `AttributeError` before anything
is submitted, and the outer bare `except` re-raises it. -/
theorem runJobs_no_pool (m : MP) (hpool : m.workerPool = Option.none)
    (jobs : List (List PyObj)) (ja : List NormJob)
    (hja : assembleJobs jobs = Except.ok ja) (hne : ja ≠ [])
    (outs : List Outcome) :
    runJobs m jobs outs =
      ⟨[], [], 0, Option.none, Except.error PyErr.attributeError⟩ := by
  cases ja with
  | nil => exact absurd rfl hne
  | cons j js => simp [runJobs, hja, hpool]

/-- C7 (code bug): `MultiProcesser.__init__` sets `worker_pool = None` and
`run_jobs` uses it without ever creating a pool; the module-level
`process_function` facade never calls `start()`, so with `cpus > 1` its
parallel path always fails with `AttributeError` instead of submitting its
jobs — the lazy pool creation the spec describes exists only in
`multi_processer`. -/
theorem process_function_missing_pool (hwCpuCount cpus : Nat)
    (function : List PyObj → List (String × PyObj) → PyObj)
    (dataList : List PyObj) (keywordData : List (String × PyObj))
    (force : Bool) (h1 : 1 < cpus) (h2 : cpus ≤ hwCpuCount) :
    processFunctionFacade hwCpuCount function dataList cpus keywordData
        force = Except.error PyErr.attributeError := by
  have hcpeq : (MP.init hwCpuCount cpus true).cpus = cpus := by
    simp only [MP.init]
    rw [if_neg (by omega)]
  unfold processFunctionFacade
  rw [if_pos (Or.inl (by rw [hcpeq]; exact h1))]
  unfold processFunctionParallelRun
  obtain ⟨ja, hja, hlen⟩ := assembleJobs_ok_of_shapes
    ((pyChunks dataList (MP.init hwCpuCount cpus true).cpus).map
      (fun chunk => chunkJob chunk keywordData))
    (by
      intro j hj
      obtain ⟨c, -, rfl⟩ := List.mem_map.mp hj
      simp [chunkJob])
  have hne : ja ≠ [] := by
    have : ja.length ≠ 0 := by
      rw [hlen, List.length_map, pyChunks_length, hcpeq]
      omega
    intro hc
    exact this (by rw [hc]; rfl)
  dsimp only
  rw [runJobs_no_pool (MP.init hwCpuCount cpus true) rfl _ ja hja hne]

/-- Witness for C7: `process_function(f, [1, 2, 3], cpus=2)` on a 4-cpu
machine. -/
theorem process_function_missing_pool_witness :
    processFunctionFacade 4 (fun _ _ => PyObj.none)
        [PyObj.int 1, PyObj.int 2, PyObj.int 3] 2 [] false =
      Except.error PyErr.attributeError :=
  process_function_missing_pool 4 2 (fun _ _ => PyObj.none)
    [PyObj.int 1, PyObj.int 2, PyObj.int 3] [] false (by decide) (by decide)

/-! ## Claim C8 -/

/-- A run of all-successful tasks collects exactly the task values. -/
theorem collectLoop_all_ok (stopOnError poolCreated : Bool)
    (vs : List PyObj) :
    collectLoop stopOnError poolCreated (vs.map Outcome.ok) =
      ⟨Except.ok vs, [], vs.length⟩ := by
  induction vs with
  | nil => rfl
  | cons v t ih => simp [collectLoop, ih, Except.map]

/-- `_loop_func` on a chunk of scalar (non-sized) elements applies the
function to each element as the sole positional argument. -/
theorem loopFunc_scalar (function : List PyObj → List (String × PyObj) → PyObj)
    (kw : List (String × PyObj)) :
    ∀ chunk : List PyObj, (∀ d ∈ chunk, pyLen d = Option.none) →
      loopFunc function chunk kw = chunk.map (fun d => function [d] kw) := by
  intro chunk
  induction chunk with
  | nil => intro _; rfl
  | cons d t ih =>
    intro h
    simp only [loopFunc, List.map_cons] at ih ⊢
    rw [h d (by simp), ih (fun d2 hd2 => h d2 (by simp [hd2]))]

/-- C8: for a pure function, scalar elements, shared keyword data and any
worker count `N ≥ 1`, the parallel path of `process_function` (chunk, run
`_loop_func` per chunk through the dispatcher with no worker failures,
flatten) returns exactly the sequential map
`[function(d, **keyword_data) for d in data_list]`, wherever the chunk
boundaries fall.  (A worker pool must exist: see the C7 defect.) -/
theorem process_function_parallel_refines_seq (m : MP) (p : Nat)
    (hpool : m.workerPool = some p) (hcpus : 1 ≤ m.cpus)
    (function : List PyObj → List (String × PyObj) → PyObj)
    (dataList : List PyObj) (keywordData : List (String × PyObj))
    (hscalar : ∀ d ∈ dataList, pyLen d = Option.none) :
    processFunctionParallelRun m function dataList keywordData =
      Except.ok (processFunctionSeq function dataList keywordData) := by
  unfold processFunctionParallelRun
  dsimp only
  obtain ⟨ja, hja, -⟩ := assembleJobs_ok_of_shapes
    ((pyChunks dataList m.cpus).map
      (fun chunk => chunkJob chunk keywordData))
    (by
      intro j hj
      obtain ⟨c, -, rfl⟩ := List.mem_map.mp hj
      simp [chunkJob])
  have houts : (pyChunks dataList m.cpus).map
      (fun chunk =>
        Outcome.ok (PyObj.list (loopFunc function chunk keywordData))) =
      ((pyChunks dataList m.cpus).map
        (fun chunk =>
          PyObj.list (loopFunc function chunk keywordData))).map
        Outcome.ok := by
    rw [List.map_map]
    rfl
  have hpres : (runJobs m
      ((pyChunks dataList m.cpus).map
        (fun chunk => chunkJob chunk keywordData))
      ((pyChunks dataList m.cpus).map
        (fun chunk =>
          Outcome.ok (PyObj.list (loopFunc function chunk keywordData))))).result =
      (collectLoop m.stopOnError false
        ((pyChunks dataList m.cpus).map
          (fun chunk =>
            Outcome.ok (PyObj.list (loopFunc function chunk keywordData))))).results := by
    cases hj : ja with
    | nil => simp only [runJobs, hja, hj, hpool]
    | cons j js => simp only [runJobs, hja, hj, hpool]
  have hrun : (runJobs m
      ((pyChunks dataList m.cpus).map
        (fun chunk => chunkJob chunk keywordData))
      ((pyChunks dataList m.cpus).map
        (fun chunk =>
          Outcome.ok (PyObj.list (loopFunc function chunk keywordData))))).result =
      Except.ok ((pyChunks dataList m.cpus).map
        (fun chunk => PyObj.list (loopFunc function chunk keywordData))) := by
    rw [hpres, houts, collectLoop_all_ok]
  rw [hrun]
  dsimp only
  have hflat : (pyChunks dataList m.cpus).flatten = dataList := by
    rw [pyChunks_eq_chunksFrom]
    exact chunksFrom_flatten _ _ (le_of_eq (chunkSizes_sum _ _ hcpus).symm)
  have hchunkmem : ∀ c ∈ pyChunks dataList m.cpus, ∀ d ∈ c, d ∈ dataList := by
    intro c hc d hd
    rw [← hflat]
    exact List.mem_flatten.mpr ⟨c, hc, hd⟩
  unfold pyFlatten
  rw [List.map_map]
  have hcomp : (pyChunks dataList m.cpus).map
      (starArgs ∘ fun chunk => PyObj.list (loopFunc function chunk keywordData)) =
      (pyChunks dataList m.cpus).map
        (fun chunk => chunk.map (fun d => function [d] keywordData)) := by
    apply List.map_congr_left
    intro c hc
    simp only [Function.comp, starArgs]
    exact loopFunc_scalar function keywordData c
      (fun d hd => hscalar d (hchunkmem c hc d hd))
  rw [hcomp, ← List.map_flatten, hflat]
  rfl

/-- The `square(x) = x * x` example function from the spec. -/
def squareFn : List PyObj → List (String × PyObj) → PyObj
  | [PyObj.int n], _ => PyObj.int (n * n)
  | _, _ => PyObj.none

/-- Witness for C8: `process_function(square, [1,2,3,4,5], worker_count=2)`
returns `[1, 4, 9, 16, 25]` in order. -/
theorem process_function_parallel_refines_seq_witness :
    processFunctionParallelRun ⟨2, some 2, true⟩ squareFn
        [PyObj.int 1, PyObj.int 2, PyObj.int 3, PyObj.int 4, PyObj.int 5]
        [] =
      Except.ok (processFunctionSeq squareFn
        [PyObj.int 1, PyObj.int 2, PyObj.int 3, PyObj.int 4, PyObj.int 5]
        []) ∧
    processFunctionSeq squareFn
        [PyObj.int 1, PyObj.int 2, PyObj.int 3, PyObj.int 4, PyObj.int 5]
        [] =
      [PyObj.int 1, PyObj.int 4, PyObj.int 9, PyObj.int 16, PyObj.int 25] :=
  ⟨process_function_parallel_refines_seq ⟨2, some 2, true⟩ 2 rfl (by decide)
      squareFn
      [PyObj.int 1, PyObj.int 2, PyObj.int 3, PyObj.int 4, PyObj.int 5]
      [] (by decide),
    rfl⟩

/-! ## Claim C9 -/

/-- A probe function recording the exact positional arguments it receives. -/
def argRecorder : List PyObj → List (String × PyObj) → PyObj :=
  fun args _ => PyObj.list args

/-- Counterexample to C9 as stated: a one-character string supports `len()`,
yet Python iteration over it yields exactly itself, so the parallel path's
`fn(*"a")` and the sequential path's `fn("a")` are the *same* call — on this
sized element the two paths do not call `fn` with different arguments. -/
theorem loop_func_single_char_cx :
    pyLen (PyObj.str "a") = some 1 ∧
    loopFunc argRecorder [PyObj.str "a"] [] =
      [PyObj.list [PyObj.str "a"]] ∧
    processFunctionSeq argRecorder [PyObj.str "a"] [] =
      [PyObj.list [PyObj.str "a"]] ∧
    loopFunc argRecorder [PyObj.str "a"] [] =
      processFunctionSeq argRecorder [PyObj.str "a"] [] :=
  ⟨rfl, rfl, rfl, rfl⟩

/-- C9 amended: `_loop_func` unpacks every element on which `len()` succeeds
(string, list, dict — a string into its one-character strings, a dict into
its keys) as positional arguments, and passes the element as the single
argument exactly when `len()` raises `TypeError` (e.g. for ints); the
sequential path always passes the element as the single argument; the two
calls differ for lists, dicts, and strings of length ≠ 1, but coincide for a
one-character string, whose iteration is itself. -/
theorem loop_func_unpacking (kw : List (String × PyObj))
    (dataList : List PyObj) :
    loopFunc argRecorder dataList kw =
      dataList.map (fun d =>
        PyObj.list (match pyLen d with
          | some _ => starArgs d
          | Option.none => [d])) ∧
    processFunctionSeq argRecorder dataList kw =
      dataList.map (fun d => PyObj.list [d]) ∧
    (∀ s : String, s.length ≠ 1 →
      starArgs (PyObj.str s) ≠ [PyObj.str s]) ∧
    (∀ c : Char, starArgs (PyObj.str (String.mk [c])) =
      [PyObj.str (String.mk [c])]) ∧
    (∀ xs : List PyObj, starArgs (PyObj.list xs) ≠ [PyObj.list xs]) ∧
    (∀ es : List (PyObj × PyObj),
      starArgs (PyObj.dict es) ≠ [PyObj.dict es]) ∧
    (∀ n : Int, pyLen (PyObj.int n) = Option.none) := by
  refine ⟨?_, rfl, ?_, fun c => rfl, ?_, ?_, fun n => rfl⟩
  · unfold loopFunc
    apply List.map_congr_left
    intro d _
    cases h : pyLen d <;> rfl
  · intro s hs heq
    simp only [starArgs] at heq
    have hlen2 := congrArg List.length heq
    simp only [List.length_map, List.length_singleton] at hlen2
    have hsl : s.length = s.toList.length := rfl
    omega
  · intro xs heq
    simp only [starArgs] at heq
    have hsz := congrArg sizeOf heq
    simp at hsz
    omega
  · intro es heq
    simp only [starArgs] at heq
    cases es with
    | nil => simp at heq
    | cons kv t =>
      cases t with
      | nil =>
        obtain ⟨k, v⟩ := kv
        simp only [List.map_cons, List.map_nil] at heq
        have hk : k = PyObj.dict [(k, v)] := by injection heq
        have hsz := congrArg sizeOf hk
        simp at hsz
        omega
      | cons kv2 t2 =>
        have hlen2 := congrArg List.length heq
        simp at hlen2

/-- Witness for C9's amended theorem, at a two-character string, an int, a
two-element list, and a one-entry dict. -/
theorem loop_func_unpacking_witness :
    loopFunc argRecorder [PyObj.str "ab", PyObj.int 7] [] =
      [PyObj.str "ab", PyObj.int 7].map (fun d =>
        PyObj.list (match pyLen d with
          | some _ => starArgs d
          | Option.none => [d])) ∧
    processFunctionSeq argRecorder [PyObj.str "ab", PyObj.int 7] [] =
      [PyObj.str "ab", PyObj.int 7].map (fun d => PyObj.list [d]) ∧
    starArgs (PyObj.str "ab") ≠ [PyObj.str "ab"] ∧
    starArgs (PyObj.list [PyObj.int 1, PyObj.int 2]) ≠
      [PyObj.list [PyObj.int 1, PyObj.int 2]] ∧
    starArgs (PyObj.dict [(PyObj.str "k", PyObj.int 1)]) ≠
      [PyObj.dict [(PyObj.str "k", PyObj.int 1)]] ∧
    pyLen (PyObj.int 7) = Option.none :=
  ⟨(loop_func_unpacking [] [PyObj.str "ab", PyObj.int 7]).1,
    (loop_func_unpacking [] [PyObj.str "ab", PyObj.int 7]).2.1,
    (loop_func_unpacking [] []).2.2.1 "ab" (by decide),
    (loop_func_unpacking [] []).2.2.2.2.1 [PyObj.int 1, PyObj.int 2],
    (loop_func_unpacking [] []).2.2.2.2.2.1 [(PyObj.str "k", PyObj.int 1)],
    (loop_func_unpacking [] []).2.2.2.2.2.2 7⟩

/-! ## Claim C10: the `apply` chunk-assembly stage -/

/-- One iteration of `for data, axis in zip(data_list, axis_split)` in
`apply` (lines 394-411), for sequence (non-ndarray) datasets: chunk `data`
with the same manual slice loop (the `axis` value is not used for sequences)
and append chunk `i` to `data_chunks_list[i]` for every `i`. -/
def applyStep (cpus : Nat) (acc : List (List (List PyObj)))
    (p : List PyObj × Nat) : List (List (List PyObj)) :=
  (acc.zip (pyChunks p.1 cpus)).map (fun q => q.1 ++ [q.2])

/-- `data_chunks_list` as assembled by `apply`: start from `cpus` empty rows
and fold over `zip(data_list, axis_split)`; Python's `zip` silently truncates
to the shorter sequence.  Row `i` becomes the positional-argument list of job
`i`: `(function, data_chunks_list[i], keyword_data)`. -/
def applyChunksList (cpus : Nat) (dataList : List (List PyObj))
    (axisSplit : List Nat) : List (List (List PyObj)) :=
  (dataList.zip axisSplit).foldl (applyStep cpus) (List.replicate cpus [])

theorem zip_take_left {α β : Type} (l1 : List α) (l2 : List β) :
    l1.zip l2 = (l1.take l2.length).zip l2 := by
  induction l1 generalizing l2 with
  | nil => simp
  | cons a t ih =>
    cases l2 with
    | nil => simp
    | cons b t2 => simp [ih t2]

theorem applyFold_shape (cpus : Nat) (ps : List (List PyObj × Nat)) :
    ∀ (acc : List (List (List PyObj))) (k : Nat), acc.length = cpus →
      (∀ row ∈ acc, row.length = k) →
      ((ps.foldl (applyStep cpus) acc).length = cpus ∧
        ∀ row ∈ ps.foldl (applyStep cpus) acc,
          row.length = k + ps.length) := by
  induction ps with
  | nil =>
    intro acc k h1 h2
    simpa using ⟨h1, h2⟩
  | cons p pt ih =>
    intro acc k h1 h2
    simp only [List.foldl_cons]
    have hstep1 : (applyStep cpus acc p).length = cpus := by
      simp [applyStep, List.length_zip, h1, pyChunks_length]
    have hstep2 : ∀ row ∈ applyStep cpus acc p, row.length = k + 1 := by
      intro row hrow
      obtain ⟨q, hq, rfl⟩ := List.mem_map.mp hrow
      obtain ⟨q1, q2⟩ := q
      have hmem := List.mem_zip hq
      simp [h2 q1 hmem.1]
    have h := ih (applyStep cpus acc p) (k + 1) hstep1 hstep2
    refine ⟨h.1, ?_⟩
    intro row hrow
    have := h.2 row hrow
    simp only [List.length_cons]
    omega

/-- C10: in the parallel path of `apply`, an `axis_split` sequence shorter
than `data_list` makes `zip` silently drop the datasets beyond
`len(axis_split)`: the assembled `data_chunks_list` depends only on the first
`len(axis_split)` datasets, no error is raised, and each of the `cpus` jobs
receives exactly `len(axis_split)` positional datasets — fewer than the
caller supplied. -/
theorem apply_axis_split_truncation (cpus : Nat) (hcpus : 1 ≤ cpus)
    (dataList : List (List PyObj)) (axisSplit : List Nat)
    (hshort : axisSplit.length < dataList.length) :
    applyChunksList cpus dataList axisSplit =
      applyChunksList cpus (dataList.take axisSplit.length) axisSplit ∧
    (applyChunksList cpus dataList axisSplit).length = cpus ∧
    (∀ row ∈ applyChunksList cpus dataList axisSplit,
      row.length = axisSplit.length ∧ row.length < dataList.length) := by
  have hbase1 : (List.replicate cpus ([] : List (List PyObj))).length = cpus := by
    simp
  have hbase2 : ∀ row ∈ List.replicate cpus ([] : List (List PyObj)),
      row.length = 0 := by
    intro r hr
    simp [List.eq_of_mem_replicate hr]
  have hshape := applyFold_shape cpus (dataList.zip axisSplit)
    (List.replicate cpus []) 0 hbase1 hbase2
  have hlz : (dataList.zip axisSplit).length = axisSplit.length := by
    rw [List.length_zip]
    omega
  refine ⟨?_, hshape.1, ?_⟩
  · unfold applyChunksList
    rw [zip_take_left dataList axisSplit]
  · intro row hrow
    have h := hshape.2 row hrow
    rw [hlz] at h
    omega

/-- Witness for C10: two datasets, a one-entry `axis_split`, two workers. -/
theorem apply_axis_split_truncation_witness :
    applyChunksList 2 [[PyObj.int 1, PyObj.int 2], [PyObj.int 3, PyObj.int 4]]
        [0] =
      applyChunksList 2
        ([[PyObj.int 1, PyObj.int 2], [PyObj.int 3, PyObj.int 4]].take
          ([0] : List Nat).length) [0] ∧
    (applyChunksList 2
        [[PyObj.int 1, PyObj.int 2], [PyObj.int 3, PyObj.int 4]]
        [0]).length = 2 ∧
    (∀ row ∈ applyChunksList 2
        [[PyObj.int 1, PyObj.int 2], [PyObj.int 3, PyObj.int 4]] [0],
      row.length = ([0] : List Nat).length ∧
      row.length <
        [[PyObj.int 1, PyObj.int 2], [PyObj.int 3, PyObj.int 4]].length) :=
  apply_axis_split_truncation 2 (by decide)
    [[PyObj.int 1, PyObj.int 2], [PyObj.int 3, PyObj.int 4]] [0] (by decide)
